import Mathlib

/-!
Verification of the Bazel CodeLens core (`src/bazel/bazel_utils.ts` and the
`BazelBuildCodeLensProvider`): package-label resolution, query construction,
and the mapping from query results to CodeLens action descriptors.

The package label is computed in the source with Node's `path.relative` and
`path.dirname`, which join with the platform separator (`/` on POSIX via
`path.posix`, `\` on Windows via `path.win32`).  The path model below is
therefore parameterized by the separator character.  Effects (the warning
popup, the Bazel query subprocess, promise rejection) are made explicit:
the query client is an injected function returning `Except`, and each
invocation's outcome records the warnings shown and the query calls issued.
-/

namespace VscodeBazel

/-! ### Path model (Node `path`, parameterized by platform separator) -/

/-- Split a character list at every occurrence of `sep`; the result always has
one more piece than there are separators (so `[] ↦ [[]]`). -/
def splitChars (sep : Char) : List Char → List (List Char)
  | [] => [[]]
  | c :: cs =>
    match splitChars sep cs with
    | [] => [[c]]
    | s :: rest => if c = sep then [] :: s :: rest else (c :: s) :: rest

/-- The nonempty segments of a (character-list) path: split on the separator
and drop empty pieces.  Dropping empties absorbs duplicate, leading and
trailing separators, exactly as Node's `path.resolve` normalization does. -/
def segsOfL (sep : Char) (cs : List Char) : List String :=
  ((splitChars sep cs).filter (fun l => !l.isEmpty)).map (fun l => String.mk l)

/-- The nonempty segments of a path string. -/
def segsOf (sep : Char) (p : String) : List String :=
  segsOfL sep p.data

/-- Dot-segment normalization performed by Node's `path.resolve` on a rooted
path: `.` is dropped and `..` pops the previous segment (`..` at the root is
dropped, since `dropLast` of `[]` is `[]`). -/
def normAbs (segs : List String) : List String :=
  segs.foldl (fun acc s =>
    if s = "." then acc
    else if s = ".." then acc.dropLast
    else acc ++ [s]) []

/-- Length of the longest common prefix of two segment lists. -/
def commonPrefixLen : List String → List String → Nat
  | x :: xs, y :: ys => if x = y then commonPrefixLen xs ys + 1 else 0
  | _, _ => 0

/-- Join segments with the separator (no leading or trailing separator). -/
def joinSegs (sep : Char) : List String → String
  | [] => ""
  | [s] => s
  | s :: s' :: rest => s ++ String.mk [sep] ++ joinSegs sep (s' :: rest)

/-- Node `path.relative(from, to)` for two paths that resolve against a common
root (e.g. both absolute, or both relative to the same working directory):
resolve both to normalized segment lists, strip the longest common prefix, and
climb with one `..` per remaining `from` segment. -/
def pathRelative (sep : Char) (fromP toP : String) : String :=
  let f := normAbs (segsOf sep fromP)
  let t := normAbs (segsOf sep toP)
  let c := commonPrefixLen f t
  joinSegs sep (List.replicate (f.length - c) ".." ++ t.drop c)

/-- Node `path.dirname`: everything before the last separator, `"."` when a
relative path has no directory component, and the bare root for a rooted path
with at most one segment. -/
def pathDirname (sep : Char) (p : String) : String :=
  let segs := segsOf sep p
  let root := if p.data.head? = some sep then String.mk [sep] else ""
  match segs with
  | [] => if root = "" then "." else root
  | [_] => if root = "" then "." else root
  | _ :: _ :: _ => root ++ joinSegs sep segs.dropLast

/-! ### Package label resolution (bazel_utils.ts lines 32–41; identical code
appears at lines 43–52 of the CodeLens provider) -/

/-- Package-label computation shared by `getTargetsForBuildFile` and
`provideCodeLenses`: the path of the BUILD file relative to the workspace,
with the file name stripped by `dirname`, `"."` replaced by `""`, and `//`
prepended.  No separator normalization is performed by the source. -/
def resolvePackageLabel (sep : Char) (workspace buildFile : String) : String :=
  let relPathToDoc := pathRelative sep workspace buildFile
  let relDirWithDoc := pathDirname sep relPathToDoc
  let relDirWithDoc := if relDirWithDoc = "." then "" else relDirWithDoc
  "//" ++ relDirWithDoc

/-- The directory component of the resolved package label: everything after
the `//` prefix (`resolvePackageLabel` is definitionally `//` prepended to
this). -/
def relPackageDir (sep : Char) (workspace buildFile : String) : String :=
  let relDirWithDoc := pathDirname sep (pathRelative sep workspace buildFile)
  if relDirWithDoc = "." then "" else relDirWithDoc

/-- One recorded invocation of the Bazel query client, as constructed in the
source: `new BazelQuery(workspace, queryExpr, [])`.  Field names follow the
spec's client interface `query(workspaceRoot, expression, extraArgs)` since
the `BazelQuery` class itself is outside the two core files. -/
structure QueryCall where
  workspaceRoot : String
  expression : String
  extraArgs : List String
deriving DecidableEq

/-- The query call built by both core functions: the expression splices the
package label into `kind(rule, <pkg>:all)` and wraps the whole expression in
single-quote characters (code point 0x27); the extra-argument list is empty. -/
def mkQueryCall (sep : Char) (workspace buildFile : String) : QueryCall :=
  { workspaceRoot := workspace
    expression :=
      "\x27kind(rule, " ++ resolvePackageLabel sep workspace buildFile ++ ":all)\x27"
    extraArgs := [] }

/-! ### Data model: rules, locations, CodeLenses -/

/-- A line/character position (vscode.Position). -/
structure Position where
  line : Nat
  character : Nat
deriving DecidableEq

/-- A source range (vscode.Range; the `end` field is named `stop` because
`end` is a Lean keyword).  The core never inspects ranges, only passes them
through. -/
structure Range where
  start : Position
  stop : Position
deriving DecidableEq

/-- Modelled from the spec: the location attached to each rule by the query
client (its class is outside the two core files); the core only reads its
`range`. -/
structure Location where
  range : Range
deriving DecidableEq

/-- A rule record from the query result: fully qualified target `name`, the
`ruleClass` string, and a source `location`. -/
structure Rule where
  name : String
  ruleClass : String
  location : Location
deriving DecidableEq

/-- The structured result of a Bazel query: an ordered list of rules. -/
structure QueryResult where
  rules : List Rule
deriving DecidableEq

/-- Modelled from the spec: `CodeLensCommandAdapter(workspaceDir, [target])`
(class outside the two core files) — carries the workspace directory and a
list of targets; the core always passes a one-element list. -/
structure CodeLensCommandAdapter where
  workspaceDirectory : String
  targets : List String
deriving DecidableEq

/-- A vscode.Command literal as built in `addCodeLens`. -/
structure Command where
  arguments : List CodeLensCommandAdapter
  command : String
  title : String
  tooltip : String
deriving DecidableEq

/-- A vscode.CodeLens: a range plus the command attached to it. -/
structure CodeLens where
  range : Range
  command : Command
deriving DecidableEq

/-- JS `String.prototype.endsWith`. -/
def strEndsWith (s suffix : String) : Bool :=
  suffix.data.isSuffixOf s.data

/-! ### Action building (`addCodeLens`, provider lines 68–101) -/

/-- Body of the `for (const rule of queryResult.rules)` loop: build the
command (test variant when `ruleClass` ends with `_test`, build variant
otherwise) and attach the rule's location range. -/
def ruleLens (bazelWorkspaceDirectory : String) (rule : Rule) : CodeLens :=
  let loc := rule.location
  let target := rule.name
  let cmd : Command :=
    if strEndsWith rule.ruleClass "_test" then
      { arguments := [⟨bazelWorkspaceDirectory, [target]⟩],
        command := "bazel.testTarget",
        title := "Test " ++ target,
        tooltip := "Build " ++ target }
    else
      { arguments := [⟨bazelWorkspaceDirectory, [target]⟩],
        command := "bazel.buildTarget",
        title := "Build " ++ target,
        tooltip := "Build " ++ target }
  ⟨loc.range, cmd⟩

/-- `addCodeLens`: start from an empty array and push one CodeLens per rule,
in iteration order. -/
def addCodeLens (bazelWorkspaceDirectory : String) (queryResult : QueryResult) :
    List CodeLens :=
  queryResult.rules.foldl
    (fun result rule => result ++ [ruleLens bazelWorkspaceDirectory rule]) []

/-! ### Orchestrators with explicit effects -/

/-- Observable outcome of one `provideCodeLenses` invocation: the warning
messages shown, the query calls issued, and the promise's result (`Except.ok`
for resolution, `Except.error` for rejection). -/
structure ProvideOutcome (E : Type) where
  warnings : List String
  calls : List QueryCall
  result : Except E (List CodeLens)

/-- The warning text shown when the file is not in a Bazel workspace (the two
string literals of the source, concatenated). -/
def workspaceWarning : String :=
  "Bazel BUILD CodeLens unavailable as currently opened file is not in " ++
  "a Bazel workspace"

/-- `BazelBuildCodeLensProvider.provideCodeLenses`: look up the workspace of
the document's `fsPath` (warn and return `[]` when there is none), resolve the
package label, run the query (an error rejects the promise), and map the
result through `addCodeLens`.  The workspace-discovery function and the query
client are the source's external collaborators, passed as functions. -/
def provideCodeLenses {E : Type} (sep : Char)
    (getBazelWorkspaceFolder : String → Option String)
    (runAndParse : QueryCall → Except E QueryResult)
    (fsPath : String) : ProvideOutcome E :=
  match getBazelWorkspaceFolder fsPath with
  | none => ⟨[workspaceWarning], [], Except.ok []⟩
  | some workspace =>
    let call := mkQueryCall sep workspace fsPath
    match runAndParse call with
    | Except.error e => ⟨[], [call], Except.error e⟩
    | Except.ok queryResult =>
      ⟨[], [call], Except.ok (addCodeLens workspace queryResult)⟩

/-- Observable outcome of one `getTargetsForBuildFile` invocation. -/
structure QueryOutcome (E : Type) where
  calls : List QueryCall
  result : Except E QueryResult

/-- `getTargetsForBuildFile` (bazel_utils.ts): resolve the package label,
issue the query, and return its result; a query error rejects the promise. -/
def getTargetsForBuildFile {E : Type} (sep : Char)
    (queryTargets : QueryCall → Except E QueryResult)
    (workspace buildFile : String) : QueryOutcome E :=
  let call := mkQueryCall sep workspace buildFile
  match queryTargets call with
  | Except.error e => ⟨[call], Except.error e⟩
  | Except.ok qr => ⟨[call], Except.ok qr⟩

/-- A plain path segment: nonempty, not a dot segment, and separator-free. -/
def isNormalSeg (sep : Char) (s : String) : Prop :=
  s ≠ "" ∧ s ≠ "." ∧ s ≠ ".." ∧ sep ∉ s.data

instance (sep : Char) (s : String) : Decidable (isNormalSeg sep s) := by
  unfold isNormalSeg
  infer_instance

/-! ### Basic facts about strings and the path model -/

theorem data_append (s t : String) : (s ++ t).data = s.data ++ t.data := rfl

theorem str_ext {s t : String} (h : s.data = t.data) : s = t :=
  congrArg String.mk h

theorem str_append_assoc (s t u : String) : s ++ t ++ u = s ++ (t ++ u) :=
  str_ext (by simp [data_append])

theorem data_eq_nil {s : String} : s.data = [] ↔ s = "" := by
  constructor
  · intro h
    exact str_ext (by simpa using h)
  · intro h
    simp [h]

theorem splitChars_ne_nil (sep : Char) : ∀ cs : List Char, splitChars sep cs ≠ []
  | [] => by simp [splitChars]
  | c :: cs => by
    simp only [splitChars]
    split
    · simp
    · split <;> simp

theorem splitChars_append (sep : Char) (xs ys : List Char) :
    splitChars sep (xs ++ sep :: ys) =
      splitChars sep xs ++ splitChars sep ys := by
  induction xs with
  | nil =>
    rcases h : splitChars sep ys with _ | ⟨s, rest⟩
    · exact absurd h (splitChars_ne_nil sep ys)
    · simp [splitChars, h]
  | cons c cs ih =>
    rcases h : splitChars sep cs with _ | ⟨s, rest⟩
    · exact absurd h (splitChars_ne_nil sep cs)
    · by_cases hc : c = sep <;> simp [splitChars, ih, h, hc]

theorem splitChars_no_sep (sep : Char) :
    ∀ cs : List Char, sep ∉ cs → splitChars sep cs = [cs]
  | [], _ => rfl
  | c :: cs, h => by
    have hc : ¬ c = sep := fun e => h (by simp [e])
    have ih := splitChars_no_sep sep cs (fun m => h (List.mem_cons_of_mem _ m))
    simp [splitChars, hc, ih]

theorem segsOfL_append (sep : Char) (xs ys : List Char) :
    segsOfL sep (xs ++ sep :: ys) = segsOfL sep xs ++ segsOfL sep ys := by
  simp [segsOfL, splitChars_append]

theorem segsOfL_no_sep (sep : Char) (cs : List Char) (hne : cs ≠ [])
    (h : sep ∉ cs) : segsOfL sep cs = [String.mk cs] := by
  simp [segsOfL, splitChars_no_sep sep cs h, hne]

theorem segsOf_single (sep : Char) (s : String) (hne : s ≠ "")
    (h : sep ∉ s.data) : segsOf sep s = [s] := by
  have : String.mk s.data = s := rfl
  rw [segsOf, segsOfL_no_sep sep s.data (fun e => hne (data_eq_nil.mp e)) h, this]

theorem segsOf_joinSegs (sep : Char) :
    ∀ l : List String, (∀ s ∈ l, s ≠ "" ∧ sep ∉ s.data) →
      segsOf sep (joinSegs sep l) = l
  | [], _ => rfl
  | [s], h => by
    have hs := h s (by simp)
    exact segsOf_single sep s hs.1 hs.2
  | s :: s' :: rest, h => by
    have hs := h s (by simp)
    have htail := segsOf_joinSegs sep (s' :: rest)
      (fun x hx => h x (List.mem_cons_of_mem _ hx))
    have hd : (joinSegs sep (s :: s' :: rest)).data
        = s.data ++ sep :: (joinSegs sep (s' :: rest)).data := by
      simp [joinSegs, data_append]
    rw [segsOf, hd, segsOfL_append]
    rw [segsOf] at htail
    rw [htail, ← segsOf, segsOf_single sep s hs.1 hs.2]
    rfl

theorem foldl_normStep (l : List String) (acc : List String)
    (h : ∀ s ∈ l, s ≠ "." ∧ s ≠ "..") :
    List.foldl
      (fun acc s =>
        if s = "." then acc
        else if s = ".." then acc.dropLast
        else acc ++ [s]) acc l = acc ++ l := by
  induction l generalizing acc with
  | nil => simp
  | cons s l ih =>
    have hs := h s (by simp)
    simp only [List.foldl_cons, hs.1, hs.2, if_neg, if_false]
    rw [ih (acc ++ [s]) (fun x hx => h x (List.mem_cons_of_mem _ hx))]
    simp

theorem normAbs_append (xs l : List String)
    (h : ∀ s ∈ l, s ≠ "." ∧ s ≠ "..") :
    normAbs (xs ++ l) = normAbs xs ++ l := by
  unfold normAbs
  rw [List.foldl_append]
  exact foldl_normStep l _ h

theorem commonPrefixLen_append (f l : List String) :
    commonPrefixLen f (f ++ l) = f.length := by
  induction f with
  | nil => cases l <;> rfl
  | cons x xs ih => simp [commonPrefixLen, ih]

theorem joinSegs_data_cons_cons (sep : Char) (s s' : String)
    (rest : List String) :
    (joinSegs sep (s :: s' :: rest)).data
      = s.data ++ sep :: (joinSegs sep (s' :: rest)).data := by
  simp [joinSegs, data_append]

theorem segsOf_extend (sep : Char) (W : String) (l : List String)
    (h : ∀ s ∈ l, s ≠ "" ∧ sep ∉ s.data) :
    segsOf sep (W ++ (String.mk [sep] ++ joinSegs sep l))
      = segsOf sep W ++ l := by
  have hj := segsOf_joinSegs sep l h
  simp only [segsOf] at hj ⊢
  have hd : (W ++ (String.mk [sep] ++ joinSegs sep l)).data
      = W.data ++ sep :: (joinSegs sep l).data := by
    simp [data_append]
  rw [hd, segsOfL_append, hj]

theorem pathRelative_extend (sep : Char) (W : String) (l : List String)
    (h : ∀ s ∈ l, isNormalSeg sep s) :
    pathRelative sep W (W ++ (String.mk [sep] ++ joinSegs sep l))
      = joinSegs sep l := by
  simp only [pathRelative]
  rw [segsOf_extend sep W l (fun s hs => ⟨(h s hs).1, (h s hs).2.2.2⟩)]
  rw [normAbs_append _ l (fun s hs => ⟨(h s hs).2.1, (h s hs).2.2.1⟩)]
  rw [commonPrefixLen_append]
  simp

theorem pathDirname_single (sep : Char) (s : String) (hne : s ≠ "")
    (h : sep ∉ s.data) : pathDirname sep s = "." := by
  have hroot : ¬ s.data.head? = some sep := by
    rcases hcs : s.data with _ | ⟨c, cs⟩
    · exact absurd (data_eq_nil.mp hcs) hne
    · have hc : c ≠ sep := by
        intro e
        exact h (by rw [hcs, e]; exact List.mem_cons_self _ _)
      simp [hc]
  simp only [pathDirname]
  rw [segsOf_single sep s hne h]
  simp [hroot]

theorem pathDirname_joinSegs (sep : Char) (s s' : String) (rest : List String)
    (h : ∀ x ∈ s :: s' :: rest, x ≠ "" ∧ sep ∉ x.data) :
    pathDirname sep (joinSegs sep (s :: s' :: rest))
      = joinSegs sep ((s :: s' :: rest).dropLast) := by
  have hs := h s (by simp)
  have hroot : ¬ (joinSegs sep (s :: s' :: rest)).data.head? = some sep := by
    rw [joinSegs_data_cons_cons]
    rcases hcs : s.data with _ | ⟨c, cs⟩
    · exact absurd (data_eq_nil.mp hcs) hs.1
    · have hc : c ≠ sep := by
        intro e
        exact hs.2 (by rw [hcs, e]; exact List.mem_cons_self _ _)
      simp [hc]
  simp only [pathDirname]
  rw [segsOf_joinSegs sep _ h]
  simp [hroot]

theorem resolvePackageLabel_eq (sep : Char) (workspace buildFile : String) :
    resolvePackageLabel sep workspace buildFile
      = "//" ++ relPackageDir sep workspace buildFile := rfl

theorem foldl_push_eq_map {α β : Type} (f : α → β) :
    ∀ (l : List α) (init : List β),
      List.foldl (fun result x => result ++ [f x]) init l = init ++ l.map f
  | [], init => by simp
  | x :: l, init => by
    rw [List.foldl_cons, foldl_push_eq_map f l (init ++ [f x])]
    simp

theorem addCodeLens_eq_map (w : String) (qr : QueryResult) :
    addCodeLens w qr = qr.rules.map (ruleLens w) := by
  unfold addCodeLens
  rw [foldl_push_eq_map]
  simp

/-! ### Claims about package-label resolution -/

/-- C2: for every nonempty workspace root `W` and plain path segments `a` and
`b`, the BUILD file `W/a/b/BUILD` resolves to the package label `//a/b`, and
the BUILD file `W/BUILD` (directly at the workspace root, where the relative
directory is the marker `"."`) resolves to `//`. -/
theorem resolvePackageLabel_nested_and_root (W a b : String) (_hW : W ≠ "")
    (ha : isNormalSeg '/' a) (hb : isNormalSeg '/' b) :
    resolvePackageLabel '/' W (W ++ "/" ++ a ++ "/" ++ b ++ "/BUILD")
        = "//" ++ a ++ "/" ++ b ∧
    resolvePackageLabel '/' W (W ++ "/BUILD") = "//" := by
  have hall : ∀ s ∈ [a, b, "BUILD"], isNormalSeg '/' s := by
    intro s hs
    simp only [List.mem_cons, List.not_mem_nil, or_false] at hs
    rcases hs with rfl | rfl | rfl
    · exact ha
    · exact hb
    · decide
  constructor
  · have h1 : W ++ "/" ++ a ++ "/" ++ b ++ "/BUILD"
        = W ++ (String.mk ['/'] ++ joinSegs '/' [a, b, "BUILD"]) := by
      apply str_ext
      simp [data_append, joinSegs]
    have r1 : pathRelative '/' W (W ++ "/" ++ a ++ "/" ++ b ++ "/BUILD")
        = joinSegs '/' [a, b, "BUILD"] := by
      rw [h1]
      exact pathRelative_extend '/' W [a, b, "BUILD"] hall
    have d1 : pathDirname '/' (joinSegs '/' [a, b, "BUILD"])
        = joinSegs '/' [a, b] :=
      pathDirname_joinSegs '/' a b ["BUILD"]
        (fun x hx => ⟨(hall x hx).1, (hall x hx).2.2.2⟩)
    have hab : joinSegs '/' [a, b] = a ++ "/" ++ b := rfl
    have hne : a ++ "/" ++ b ≠ "." := by
      intro e
      have hm : '/' ∈ (a ++ "/" ++ b).data := by
        simp [data_append]
      rw [e] at hm
      exact absurd hm (by decide)
    have hlabel : resolvePackageLabel '/' W
        (W ++ "/" ++ a ++ "/" ++ b ++ "/BUILD") = "//" ++ (a ++ "/" ++ b) := by
      simp [resolvePackageLabel, r1, d1, hab, hne]
    rw [hlabel]
    exact str_ext (by simp [data_append])
  · have h2 : W ++ "/BUILD" = W ++ (String.mk ['/'] ++ joinSegs '/' ["BUILD"]) := by
      apply str_ext
      simp [data_append, joinSegs]
    have r2 : pathRelative '/' W (W ++ "/BUILD") = "BUILD" := by
      rw [h2]
      exact pathRelative_extend '/' W ["BUILD"] (by decide)
    have d2 : pathDirname '/' "BUILD" = "." := by decide
    simp [resolvePackageLabel, r2, d2]

/-- Witness for C2 at concrete inputs: workspace `/home/user`, segments
`foo` and `bar`. -/
theorem resolvePackageLabel_nested_and_root_witness :
    (("/home/user" : String) ≠ "" ∧ isNormalSeg '/' "foo" ∧
      isNormalSeg '/' "bar") ∧
    (resolvePackageLabel '/' "/home/user"
          ("/home/user" ++ "/" ++ "foo" ++ "/" ++ "bar" ++ "/BUILD")
        = "//" ++ "foo" ++ "/" ++ "bar" ∧
      resolvePackageLabel '/' "/home/user" ("/home/user" ++ "/BUILD") = "//") :=
  ⟨⟨by decide, by decide, by decide⟩,
    resolvePackageLabel_nested_and_root "/home/user" "foo" "bar"
      (by decide) (by decide) (by decide)⟩

/-- C1 (code bug): the source performs no separator normalization, so on a
Windows host — where Node's `path.relative` and `path.dirname` join with the
native separator `\` — the label computed for `C:\w\a\b\BUILD` under
workspace `C:\w` is `//a\b`, which contains a backslash; the claim that the
label contains only forward slashes regardless of the host separator fails.
On a POSIX host the same layout yields `//a/b`. -/
theorem resolvePackageLabel_win32_backslash :
    resolvePackageLabel '\\' "C:\\w" "C:\\w\\a\\b\\BUILD" = "//a\\b" ∧
    '\\' ∈ (resolvePackageLabel '\\' "C:\\w" "C:\\w\\a\\b\\BUILD").data ∧
    resolvePackageLabel '/' "/w" "/w/a/b/BUILD" = "//a/b" :=
  ⟨by decide, by decide, by decide⟩

/-- C9: package-label resolution is a pure, deterministic, total function of
the separator, the workspace root and the BUILD file path: two calls on
identical inputs return identical labels (and, the function being total, no
error is ever raised). -/
theorem resolvePackageLabel_deterministic (sep : Char)
    (workspace buildFile : String) :
    resolvePackageLabel sep workspace buildFile
      = resolvePackageLabel sep workspace buildFile := rfl

/-- C10: for every separator, workspace root and BUILD file path — including
files outside the workspace root, whose relative path climbs with `..` — the
resolved label starts with `//`; concretely, `/q/BUILD` under workspace
`/w/x` yields `//../../q`. -/
theorem resolvePackageLabel_slashslash (sep : Char)
    (workspace buildFile : String) :
    (∃ dir : String,
      resolvePackageLabel sep workspace buildFile = "//" ++ dir) ∧
    resolvePackageLabel '/' "/w/x" "/q/BUILD" = "//../../q" :=
  ⟨⟨relPackageDir sep workspace buildFile,
    resolvePackageLabel_eq sep workspace buildFile⟩, by decide⟩

/-! ### Claims about action building -/

/-- C3: the descriptor built for the rule at position `i` of the query result,
when its `ruleClass` ends with the literal suffix `_test`, is the test action:
command id `bazel.testTarget`, title `Test <name>`, tooltip `Build <name>`
(the tooltip literally says `Build`), with the rule's range and a one-element
argument list carrying the workspace and target. -/
theorem addCodeLens_test_action (w : String) (qr : QueryResult) (i : Nat)
    (r : Rule) (hr : qr.rules[i]? = some r)
    (ht : strEndsWith r.ruleClass "_test" = true) :
    (addCodeLens w qr)[i]? = some
      { range := r.location.range,
        command :=
          { arguments := [⟨w, [r.name]⟩],
            command := "bazel.testTarget",
            title := "Test " ++ r.name,
            tooltip := "Build " ++ r.name } } := by
  rw [addCodeLens_eq_map, List.getElem?_map, hr]
  simp [ruleLens, ht]

/-- Witness for C3: a `go_test` rule named `//a/b:t`. -/
theorem addCodeLens_test_action_witness :
    ((QueryResult.mk [⟨"//a/b:t", "go_test", ⟨⟨⟨3, 0⟩, ⟨3, 5⟩⟩⟩⟩]).rules[0]?
        = some ⟨"//a/b:t", "go_test", ⟨⟨⟨3, 0⟩, ⟨3, 5⟩⟩⟩⟩ ∧
      strEndsWith "go_test" "_test" = true) ∧
    (addCodeLens "/w" (QueryResult.mk
        [⟨"//a/b:t", "go_test", ⟨⟨⟨3, 0⟩, ⟨3, 5⟩⟩⟩⟩]))[0]? = some
      { range := ⟨⟨3, 0⟩, ⟨3, 5⟩⟩,
        command :=
          { arguments := [⟨"/w", ["//a/b:t"]⟩],
            command := "bazel.testTarget",
            title := "Test " ++ "//a/b:t",
            tooltip := "Build " ++ "//a/b:t" } } :=
  ⟨⟨by decide, by decide⟩,
    addCodeLens_test_action "/w"
      (QueryResult.mk [⟨"//a/b:t", "go_test", ⟨⟨⟨3, 0⟩, ⟨3, 5⟩⟩⟩⟩]) 0
      ⟨"//a/b:t", "go_test", ⟨⟨⟨3, 0⟩, ⟨3, 5⟩⟩⟩⟩ (by decide) (by decide)⟩

/-- C4: the descriptor built for the rule at position `i`, when its
`ruleClass` does not end with `_test`, is the build action: command id
`bazel.buildTarget`, title and tooltip both `Build <name>`. -/
theorem addCodeLens_build_action (w : String) (qr : QueryResult) (i : Nat)
    (r : Rule) (hr : qr.rules[i]? = some r)
    (ht : strEndsWith r.ruleClass "_test" = false) :
    (addCodeLens w qr)[i]? = some
      { range := r.location.range,
        command :=
          { arguments := [⟨w, [r.name]⟩],
            command := "bazel.buildTarget",
            title := "Build " ++ r.name,
            tooltip := "Build " ++ r.name } } := by
  rw [addCodeLens_eq_map, List.getElem?_map, hr]
  simp [ruleLens, ht]

/-- Witness for C4: a `go_binary` rule named `//a/b:m`. -/
theorem addCodeLens_build_action_witness :
    ((QueryResult.mk [⟨"//a/b:m", "go_binary", ⟨⟨⟨7, 0⟩, ⟨7, 5⟩⟩⟩⟩]).rules[0]?
        = some ⟨"//a/b:m", "go_binary", ⟨⟨⟨7, 0⟩, ⟨7, 5⟩⟩⟩⟩ ∧
      strEndsWith "go_binary" "_test" = false) ∧
    (addCodeLens "/w" (QueryResult.mk
        [⟨"//a/b:m", "go_binary", ⟨⟨⟨7, 0⟩, ⟨7, 5⟩⟩⟩⟩]))[0]? = some
      { range := ⟨⟨7, 0⟩, ⟨7, 5⟩⟩,
        command :=
          { arguments := [⟨"/w", ["//a/b:m"]⟩],
            command := "bazel.buildTarget",
            title := "Build " ++ "//a/b:m",
            tooltip := "Build " ++ "//a/b:m" } } :=
  ⟨⟨by decide, by decide⟩,
    addCodeLens_build_action "/w"
      (QueryResult.mk [⟨"//a/b:m", "go_binary", ⟨⟨⟨7, 0⟩, ⟨7, 5⟩⟩⟩⟩]) 0
      ⟨"//a/b:m", "go_binary", ⟨⟨⟨7, 0⟩, ⟨7, 5⟩⟩⟩⟩ (by decide) (by decide)⟩

/-- C8: `addCodeLens` produces exactly one descriptor per rule, in the order
of the client's result (it is the pointwise image of the rule list under the
loop body, with no sorting and no filtering), each descriptor carries its
rule's location range, and the empty query result yields the empty descriptor
list. -/
theorem addCodeLens_one_per_rule (w : String) (qr : QueryResult) :
    addCodeLens w qr = qr.rules.map (ruleLens w) ∧
    (addCodeLens w qr).length = qr.rules.length ∧
    (addCodeLens w qr).map CodeLens.range
      = qr.rules.map (fun r => r.location.range) ∧
    addCodeLens w (QueryResult.mk []) = [] := by
  refine ⟨addCodeLens_eq_map w qr, ?_, ?_, rfl⟩
  · rw [addCodeLens_eq_map, List.length_map]
  · rw [addCodeLens_eq_map, List.map_map]
    rfl

/-! ### Claims about the orchestrators -/

theorem mkQueryCall_eq (sep : Char) (workspace buildFile : String) :
    mkQueryCall sep workspace buildFile
      = ⟨workspace,
          "\x27kind(rule, //" ++ relPackageDir sep workspace buildFile
            ++ ":all)\x27", []⟩ := by
  unfold mkQueryCall
  congr 1

/-- C5: under a resolved workspace, both orchestrators hand the query client
exactly one call whose expression is the literal `kind(rule, //<dir>:all)`
wrapped in single-quote characters (code point 0x27), with the non-recursive
`:all` pattern and an empty extra-argument list. -/
theorem query_expression_format {E : Type} (sep : Char)
    (find : String → Option String)
    (client : QueryCall → Except E QueryResult)
    (fsPath workspace : String) (hw : find fsPath = some workspace) :
    ∃ dir : String,
      resolvePackageLabel sep workspace fsPath = "//" ++ dir ∧
      (provideCodeLenses sep find client fsPath).calls
        = [⟨workspace, "\x27kind(rule, //" ++ dir ++ ":all)\x27", []⟩] ∧
      (getTargetsForBuildFile sep client workspace fsPath).calls
        = [⟨workspace, "\x27kind(rule, //" ++ dir ++ ":all)\x27", []⟩] := by
  refine ⟨relPackageDir sep workspace fsPath,
    resolvePackageLabel_eq sep workspace fsPath, ?_, ?_⟩
  · cases hc : client (mkQueryCall sep workspace fsPath) with
    | error e =>
      simp only [provideCodeLenses, hw, hc]
      rw [mkQueryCall_eq]
    | ok qres =>
      simp only [provideCodeLenses, hw, hc]
      rw [mkQueryCall_eq]
  · cases hc : client (mkQueryCall sep workspace fsPath) with
    | error e =>
      simp only [getTargetsForBuildFile, hc]
      rw [mkQueryCall_eq]
    | ok qres =>
      simp only [getTargetsForBuildFile, hc]
      rw [mkQueryCall_eq]

/-- Witness for C5: workspace `/w`, BUILD file `/w/a/BUILD`. -/
theorem query_expression_format_witness :
    ((fun _ : String => some "/w") "/w/a/BUILD" = some "/w") ∧
    (∃ dir : String,
      resolvePackageLabel '/' "/w" "/w/a/BUILD" = "//" ++ dir ∧
      (provideCodeLenses '/' (fun _ => some "/w")
          (fun _ => (Except.ok (QueryResult.mk []) :
            Except String QueryResult)) "/w/a/BUILD").calls
        = [⟨"/w", "\x27kind(rule, //" ++ dir ++ ":all)\x27", []⟩] ∧
      (getTargetsForBuildFile '/'
          (fun _ => (Except.ok (QueryResult.mk []) :
            Except String QueryResult)) "/w" "/w/a/BUILD").calls
        = [⟨"/w", "\x27kind(rule, //" ++ dir ++ ":all)\x27", []⟩]) :=
  ⟨rfl, query_expression_format '/' (fun _ => some "/w")
    (fun _ => (Except.ok (QueryResult.mk []) : Except String QueryResult))
    "/w/a/BUILD" "/w" rfl⟩

/-- C6: when workspace discovery returns `none`, `provideCodeLenses` shows
exactly one warning (the fixed message), issues no query call, and resolves
successfully with the empty CodeLens list — no error propagates. -/
theorem provideCodeLenses_no_workspace {E : Type} (sep : Char)
    (find : String → Option String)
    (client : QueryCall → Except E QueryResult)
    (fsPath : String) (h : find fsPath = none) :
    provideCodeLenses sep find client fsPath
      = ⟨[workspaceWarning], [], Except.ok []⟩ := by
  simp [provideCodeLenses, h]

/-- Witness for C6: a discovery function that never finds a workspace. -/
theorem provideCodeLenses_no_workspace_witness :
    ((fun _ : String => (none : Option String)) "/f/BUILD" = none) ∧
    provideCodeLenses '/' (fun _ => none)
        (fun _ => (Except.ok (QueryResult.mk []) : Except String QueryResult))
        "/f/BUILD"
      = ⟨[workspaceWarning], [], Except.ok []⟩ :=
  ⟨rfl, provideCodeLenses_no_workspace '/' (fun _ => none)
    (fun _ => (Except.ok (QueryResult.mk []) : Except String QueryResult))
    "/f/BUILD" rfl⟩

/-- C7: when the query client fails, both orchestrators fail with that same
error — it is neither caught nor replaced — after having issued exactly one
query call (no retry), and no partial descriptor list is returned. -/
theorem orchestrator_propagates_query_error {E : Type} (sep : Char)
    (find : String → Option String)
    (client : QueryCall → Except E QueryResult)
    (fsPath workspace : String) (e : E)
    (hw : find fsPath = some workspace)
    (he : client (mkQueryCall sep workspace fsPath) = Except.error e) :
    (provideCodeLenses sep find client fsPath).result = Except.error e ∧
    (provideCodeLenses sep find client fsPath).calls
      = [mkQueryCall sep workspace fsPath] ∧
    (getTargetsForBuildFile sep client workspace fsPath).result
      = Except.error e ∧
    (getTargetsForBuildFile sep client workspace fsPath).calls
      = [mkQueryCall sep workspace fsPath] := by
  refine ⟨?_, ?_, ?_, ?_⟩ <;>
    simp [provideCodeLenses, getTargetsForBuildFile, hw, he]

/-- Witness for C7: a client that always rejects with `"boom"`. -/
theorem orchestrator_propagates_query_error_witness :
    ((fun _ : String => some "/w") "/w/a/BUILD" = some "/w" ∧
      (fun _ : QueryCall => (Except.error "boom" : Except String QueryResult))
          (mkQueryCall '/' "/w" "/w/a/BUILD") = Except.error "boom") ∧
    ((provideCodeLenses '/' (fun _ => some "/w")
        (fun _ => (Except.error "boom" : Except String QueryResult))
        "/w/a/BUILD").result = Except.error "boom" ∧
      (provideCodeLenses '/' (fun _ => some "/w")
        (fun _ => (Except.error "boom" : Except String QueryResult))
        "/w/a/BUILD").calls = [mkQueryCall '/' "/w" "/w/a/BUILD"] ∧
      (getTargetsForBuildFile '/'
        (fun _ => (Except.error "boom" : Except String QueryResult))
        "/w" "/w/a/BUILD").result = Except.error "boom" ∧
      (getTargetsForBuildFile '/'
        (fun _ => (Except.error "boom" : Except String QueryResult))
        "/w" "/w/a/BUILD").calls = [mkQueryCall '/' "/w" "/w/a/BUILD"]) :=
  ⟨⟨rfl, rfl⟩, orchestrator_propagates_query_error '/' (fun _ => some "/w")
    (fun _ => (Except.error "boom" : Except String QueryResult))
    "/w/a/BUILD" "/w" "boom" rfl rfl⟩

end VscodeBazel
